import Mathlib

/-!
Shallow embedding of `internal/utils/utils.go` from the terraform-provider-civo
repository, together with proofs of the specified properties of its
validators, string helpers, ID parser and retry loop.
-/

namespace Civo

/-- A Go `interface\x7b\x7d` value as passed to the schema validators:
either a string or some non-string value (int, bool, nil, ...). -/
inductive GoValue where
  | str (s : String)
  | intV (n : Int)
  | boolV (b : Bool)
  | nilV
deriving DecidableEq, Repr

/-- The character class matched by Go `regexp` `\s` (RE2 Perl class):
tab, newline, form feed, carriage return, space. -/
def isGoRegexpSpace (c : Char) : Bool :=
  c = '\t' || c = '\n' || c = '\x0c' || c = '\r' || c = ' '

/-- `regexp.MustCompile(` `\s+` `).Match([]byte(value))`: an unanchored
match succeeds iff the string contains at least one `\s` character.
(Multi-byte UTF-8 characters consist only of bytes ≥ 0x80, so the
byte-level match coincides with this character-level test.) -/
def containsGoWhitespace (s : String) : Bool :=
  s.data.any isGoRegexpSpace

/-- The character class `[a-zA-Z0-9-_.]` of the alphanumeric-name regex. -/
def isNameClassChar (c : Char) : Bool :=
  (('a' ≤ c && c ≤ 'z') || ('A' ≤ c && c ≤ 'Z') || ('0' ≤ c && c ≤ '9')
    || c = '-' || c = '_' || c = '.')

/-- `regexp.MustCompile(` `^[a-zA-Z0-9-_.]+$` `).Match([]byte(value))`:
the whole string is one or more characters of the class. -/
def matchesNameRegex (s : String) : Bool :=
  !s.data.isEmpty && s.data.all isNameClassChar

/-- Result shape of the SDK-v1 validators: `(ws []string, es []error)`,
errors modelled by their formatted messages. -/
abbrev WarnsErrs := List String × List String

/-- `ValidateName` from utils.go: type check, then whitespace check. -/
def ValidateName (v : GoValue) : WarnsErrs :=
  match v with
  | GoValue.str value =>
    if containsGoWhitespace value then
      ([], ["name cannot contain whitespace. Got " ++ value])
    else
      ([], [])
  | _ => ([], ["expected name to be string"])

/-- `ValidateCNIName` from utils.go: type check, whitespace check, then
membership in \x7bflannel, cilium\x7d. -/
def ValidateCNIName (v : GoValue) : WarnsErrs :=
  match v with
  | GoValue.str value =>
    if containsGoWhitespace value then
      ([], ["CNI cannot contain whitespace. Got " ++ value])
    else if value ≠ "flannel" && value ≠ "cilium" then
      ([], ["CNI plugin provided isn't valid/supported"])
    else
      ([], [])
  | _ => ([], ["expected CNI to be string"])

/-- `ValidateNameSize` from utils.go: type check, whitespace check, then
byte-length check `len(value) > 63`. -/
def ValidateNameSize (v : GoValue) : WarnsErrs :=
  match v with
  | GoValue.str value =>
    if containsGoWhitespace value then
      ([], ["name cannot contain whitespace. Got " ++ value])
    else if value.utf8ByteSize > 63 then
      ([], ["the len of the name has to be less than 63. Got " ++
            toString value.utf8ByteSize])
    else
      ([], [])
  | _ => ([], ["expected name to be string"])

/-- Severity of an SDK-v2 diagnostic. -/
inductive Severity where
  | error
  | warning
deriving DecidableEq, Repr

/-- An SDK-v2 `diag.Diagnostic`. -/
structure Diagnostic where
  severity : Severity
  summary : String
  detail : String
deriving DecidableEq, Repr

/-- `ValidateNameOnlyContainsAlphanumericCharacters` from utils.go.
The Go function begins with the unchecked type assertion
`value := v.(string)`, which panics for every non-string input; the
subsequent `_, ok := v.(string)` check is therefore unreachable for
non-strings and its type-mismatch diagnostic is dead code.  The panic is
modelled as `Except.error`. -/
def ValidateNameOnlyContainsAlphanumericCharacters (v : GoValue) :
    Except String (List Diagnostic) :=
  match v with
  | GoValue.str value =>
    let wsDiags : List Diagnostic :=
      if containsGoWhitespace value then
        [⟨Severity.error, "cannot contain whitespace",
          "name cannot contain whitespace. Got " ++ value⟩]
      else []
    let charDiags : List Diagnostic :=
      if !matchesNameRegex value then
        [⟨Severity.error, "alphanumeric characters",
          "name can only contain alphanumeric characters, hyphens, underscores and dots. Got "
            ++ value⟩]
      else []
    Except.ok (wsDiags ++ charDiags)
  | _ => Except.error "panic: interface conversion: interface is not string"

/-- Split a character list at the first `':'`:
`none` if no colon occurs, otherwise the parts before and after it. -/
def splitFirstColon : List Char → Option (List Char × List Char)
  | [] => none
  | c :: rest =>
    if c = ':' then some ([], rest)
    else (splitFirstColon rest).map (fun p => (c :: p.1, p.2))

/-- `ResourceCommonParseID` from utils.go: `strings.SplitN(id, ":", 2)`,
error unless both parts exist and are non-empty. -/
def ResourceCommonParseID (id : String) : Except String (String × String) :=
  match splitFirstColon id.data with
  | none =>
    Except.error ("unexpected format of ID (" ++ id ++
      "), expected attribute1:attribute2")
  | some (a, b) =>
    if a.isEmpty || b.isEmpty then
      Except.error ("unexpected format of ID (" ++ id ++
        "), expected attribute1:attribute2")
    else
      Except.ok (⟨a⟩, ⟨b⟩)

/-- Remove the first occurrence of `'G'` from a character list, as
`strings.Replace(s, "G", "", 1)` does on the string. -/
def removeFirstG : List Char → List Char
  | [] => []
  | c :: rest => if c = 'G' then rest else c :: removeFirstG rest

/-- Largest Go `int` (64-bit) value. -/
def goIntMax : Int := 9223372036854775807

/-- Smallest Go `int` (64-bit) value. -/
def goIntMin : Int := -9223372036854775808

/-- Interpret a list of decimal digits as a natural number; `none` if the
list is empty or contains a non-digit. -/
def decDigits (cs : List Char) : Option Nat :=
  if cs.isEmpty || cs.any (fun c => !c.isDigit) then none
  else some (cs.foldl (fun a c => a * 10 + (c.toNat - 48)) 0)

/-- Go `strconv.Atoi`: optional sign, decimal digits, 64-bit range check.
Returns the pair `(int, error)`, the error modelled by its kind. -/
def goAtoi (s : String) : Int × Option String :=
  let (neg, ds) :=
    match s.data with
    | '-' :: rest => (true, rest)
    | '+' :: rest => (false, rest)
    | cs => (false, cs)
  match decDigits ds with
  | none => (0, some ("strconv.Atoi: parsing " ++ s ++ ": invalid syntax"))
  | some n =>
    let v : Int := if neg then -(n : Int) else (n : Int)
    if v < goIntMin then
      (goIntMin, some ("strconv.Atoi: parsing " ++ s ++ ": value out of range"))
    else if v > goIntMax then
      (goIntMax, some ("strconv.Atoi: parsing " ++ s ++ ": value out of range"))
    else (v, none)

/-- `StringToInt` from utils.go: delete the first `"G"`, then `Atoi`;
on error return `(0, err)`. -/
def StringToInt (s : String) : Int × Option String :=
  let s1 : String := ⟨removeFirstG s.data⟩
  match goAtoi s1 with
  | (_, some e) => (0, some e)
  | (i, none) => (i, none)

/-- An observable step of `RetryUntilSuccessOrTimeout`:
`call k r` — the `k`-th invocation of `fn`, returning `r`
(`none` = nil error, `some e` = the error message `e`);
`deadlineCheck k` — the comparison `time.Since(start) > timeout`
performed after the failed `k`-th invocation;
`logged e` — `log.Printf` of the underlying error `e`;
`slept d` — `time.Sleep(interval)` with `interval = d`. -/
inductive Event where
  | call (k : Nat) (r : Option String)
  | deadlineCheck (k : Nat)
  | logged (e : String)
  | slept (d : Nat)
deriving DecidableEq, Repr

/-- One run of the loop of `RetryUntilSuccessOrTimeout`, instrumented
with its event trace.  `fn k` is the result of the `k`-th invocation of
the operation (`none` = success); `elapsed k` is the value of
`time.Since(start)` observed at the deadline check following the `k`-th
invocation; `fuel` bounds the number of iterations modelled (`none`
means the loop did not finish within `fuel` iterations).  On
termination it yields the event trace together with the returned error
(`none` = the nil error, `some m` = an error with message `m`). -/
def retryRun (fn : Nat → Option String) (elapsed : Nat → Nat)
    (interval timeout : Nat) : Nat → Nat → Option (List Event × Option String)
  | 0, _ => none
  | fuel + 1, k =>
    match fn k with
    | none => some ([Event.call k none], none)
    | some e =>
      if elapsed k > timeout then
        some ([Event.call k (some e), Event.deadlineCheck k],
              some "timeout reached")
      else
        match retryRun fn elapsed interval timeout fuel (k + 1) with
        | none => none
        | some (tr, out) =>
          some (Event.call k (some e) :: Event.deadlineCheck k ::
                Event.logged e :: Event.slept interval :: tr, out)

/-- `RetryUntilSuccessOrTimeout` from utils.go, modelled as the run
starting at invocation 0. -/
def RetryUntilSuccessOrTimeout (fn : Nat → Option String)
    (elapsed : Nat → Nat) (interval timeout fuel : Nat) :
    Option (List Event × Option String) :=
  retryRun fn elapsed interval timeout fuel 0

/-- `true` iff the trace never performs a deadline check except
immediately after a failed invocation (and in particular does not start
with one). -/
def checksFollowFailedCalls : List Event → Bool
  | [] => true
  | Event.deadlineCheck _ :: _ => false
  | Event.call k (some _) :: Event.deadlineCheck k' :: rest =>
    k' = k && checksFollowFailedCalls rest
  | _ :: rest => checksFollowFailedCalls rest

/-- Is the event a successful invocation? -/
def isSuccessCall : Event → Bool
  | Event.call _ none => true
  | _ => false

/-! ### Helper lemmas about the character classes -/

lemma space_not_nameClass (c : Char) (h : isGoRegexpSpace c = true) :
    isNameClassChar c = false := by
  simp only [isGoRegexpSpace, Bool.or_eq_true, decide_eq_true_eq] at h
  rcases h with ((((h | h) | h) | h) | h) <;> subst h <;> decide

lemma matches_no_whitespace (s : String) (h : matchesNameRegex s = true) :
    containsGoWhitespace s = false := by
  rcases hw : containsGoWhitespace s with _ | _
  · rfl
  · exfalso
    simp only [matchesNameRegex, Bool.and_eq_true, List.all_eq_true] at h
    simp only [containsGoWhitespace, List.any_eq_true] at hw
    obtain ⟨c, hc, hsp⟩ := hw
    have h1 := h.2 c hc
    have h2 := space_not_nameClass c hsp
    rw [h1] at h2
    simp at h2

lemma any_bad_not_matches (s : String)
    (h : s.data.any (fun c => !isNameClassChar c) = true) :
    matchesNameRegex s = false := by
  rcases hm : matchesNameRegex s with _ | _
  · rfl
  · exfalso
    simp only [matchesNameRegex, Bool.and_eq_true, List.all_eq_true] at hm
    simp only [List.any_eq_true, Bool.not_eq_true'] at h
    obtain ⟨c, hc, hbad⟩ := h
    have := hm.2 c hc
    rw [this] at hbad
    simp at hbad

/-! ### Claims about the validators -/

/-- C1: the spec requires every validator to return exactly one
type-mismatch error and no warnings for non-string input.  The three
SDK-v1 validators do so, but
`ValidateNameOnlyContainsAlphanumericCharacters` panics on its
unchecked type assertion `value := v.(string)`, making its own
type-mismatch diagnostic unreachable: the code contradicts its intent. -/
theorem nonString_input_behavior :
    ValidateName (GoValue.intV 42) = ([], ["expected name to be string"]) ∧
    ValidateCNIName (GoValue.intV 42) = ([], ["expected CNI to be string"]) ∧
    ValidateNameSize (GoValue.intV 42) = ([], ["expected name to be string"]) ∧
    ValidateNameOnlyContainsAlphanumericCharacters (GoValue.intV 42) =
      Except.error "panic: interface conversion: interface is not string" := by
  refine ⟨rfl, rfl, rfl, rfl⟩

/-- C5: every string containing a whitespace character (in the sense of
the Go regexp class `\s`) makes each whitespace-sensitive validator
report a whitespace error. -/
theorem whitespace_validators (s : String)
    (h : containsGoWhitespace s = true) :
    ValidateName (GoValue.str s) =
      ([], ["name cannot contain whitespace. Got " ++ s]) ∧
    ValidateCNIName (GoValue.str s) =
      ([], ["CNI cannot contain whitespace. Got " ++ s]) ∧
    ValidateNameSize (GoValue.str s) =
      ([], ["name cannot contain whitespace. Got " ++ s]) ∧
    ∃ ds, ValidateNameOnlyContainsAlphanumericCharacters (GoValue.str s) =
        Except.ok ds ∧
      (⟨Severity.error, "cannot contain whitespace",
        "name cannot contain whitespace. Got " ++ s⟩ : Diagnostic) ∈ ds := by
  refine ⟨by simp [ValidateName, h], by simp [ValidateCNIName, h],
    by simp [ValidateNameSize, h], ?_⟩
  refine ⟨_, rfl, ?_⟩
  simp [ValidateNameOnlyContainsAlphanumericCharacters, h]

/-- C5 witness: concrete whitespace-bearing input `"a b"`. -/
theorem whitespace_validators_witness :
    ValidateName (GoValue.str "a b") =
      ([], ["name cannot contain whitespace. Got a b"]) ∧
    ValidateCNIName (GoValue.str "a b") =
      ([], ["CNI cannot contain whitespace. Got a b"]) ∧
    ValidateNameSize (GoValue.str "a b") =
      ([], ["name cannot contain whitespace. Got a b"]) ∧
    ∃ ds, ValidateNameOnlyContainsAlphanumericCharacters (GoValue.str "a b") =
        Except.ok ds ∧
      (⟨Severity.error, "cannot contain whitespace",
        "name cannot contain whitespace. Got a b"⟩ : Diagnostic) ∈ ds :=
  whitespace_validators "a b" (by decide)

/-- C6: for whitespace-free names, `ValidateNameSize` reports a length
error exactly when `len(value) > 63`, and accepts length exactly 63. -/
theorem nameSize_length (s : String) (hws : containsGoWhitespace s = false) :
    (s.utf8ByteSize > 63 →
      ValidateNameSize (GoValue.str s) =
        ([], ["the len of the name has to be less than 63. Got " ++
              toString s.utf8ByteSize])) ∧
    (s.utf8ByteSize = 63 → ValidateNameSize (GoValue.str s) = ([], [])) := by
  constructor
  · intro hl
    simp [ValidateNameSize, hws, hl]
  · intro hl
    simp [ValidateNameSize, hws, hl]

/-- C6 witness: a 64-`a` name is rejected, a 63-`a` name is accepted. -/
theorem nameSize_length_witness :
    ValidateNameSize (GoValue.str
      "aaaaaaaaaaaaaaaaaaaaaaaaaaaaaaaaaaaaaaaaaaaaaaaaaaaaaaaaaaaaaaaa") =
      ([], ["the len of the name has to be less than 63. Got 64"]) ∧
    ValidateNameSize (GoValue.str
      "aaaaaaaaaaaaaaaaaaaaaaaaaaaaaaaaaaaaaaaaaaaaaaaaaaaaaaaaaaaaaaa") =
      ([], []) := by
  constructor
  · exact (nameSize_length
      "aaaaaaaaaaaaaaaaaaaaaaaaaaaaaaaaaaaaaaaaaaaaaaaaaaaaaaaaaaaaaaaa"
      (by decide)).1 (by decide)
  · exact (nameSize_length
      "aaaaaaaaaaaaaaaaaaaaaaaaaaaaaaaaaaaaaaaaaaaaaaaaaaaaaaaaaaaaaaa"
      (by decide)).2 (by decide)

/-- C7: the alphanumeric validator returns no diagnostics on strings
matched by `^[a-zA-Z0-9-_.]+$`; both the whitespace and the
character-set diagnostic when the string has whitespace and a character
outside the class; and only the character-set diagnostic when it has a
bad character but no whitespace. -/
theorem alnum_validator_diags (s : String) :
    (matchesNameRegex s = true →
      ValidateNameOnlyContainsAlphanumericCharacters (GoValue.str s) =
        Except.ok []) ∧
    (containsGoWhitespace s = true →
      s.data.any (fun c => !isNameClassChar c) = true →
      ValidateNameOnlyContainsAlphanumericCharacters (GoValue.str s) =
        Except.ok
          [⟨Severity.error, "cannot contain whitespace",
            "name cannot contain whitespace. Got " ++ s⟩,
           ⟨Severity.error, "alphanumeric characters",
            "name can only contain alphanumeric characters, hyphens, underscores and dots. Got "
              ++ s⟩]) ∧
    (containsGoWhitespace s = false →
      s.data.any (fun c => !isNameClassChar c) = true →
      ValidateNameOnlyContainsAlphanumericCharacters (GoValue.str s) =
        Except.ok
          [⟨Severity.error, "alphanumeric characters",
            "name can only contain alphanumeric characters, hyphens, underscores and dots. Got "
              ++ s⟩]) := by
  refine ⟨?_, ?_, ?_⟩
  · intro h
    have hws := matches_no_whitespace s h
    simp [ValidateNameOnlyContainsAlphanumericCharacters, hws, h]
  · intro hws hbad
    have hm := any_bad_not_matches s hbad
    simp [ValidateNameOnlyContainsAlphanumericCharacters, hws, hm]
  · intro hws hbad
    have hm := any_bad_not_matches s hbad
    simp [ValidateNameOnlyContainsAlphanumericCharacters, hws, hm]

/-- C7 witness: concrete inputs `"good-name_1.x"`, `"bad name!"`,
`"bad!name"`. -/
theorem alnum_validator_diags_witness :
    ValidateNameOnlyContainsAlphanumericCharacters
        (GoValue.str "good-name_1.x") = Except.ok [] ∧
    ValidateNameOnlyContainsAlphanumericCharacters (GoValue.str "bad name!") =
      Except.ok
        [⟨Severity.error, "cannot contain whitespace",
          "name cannot contain whitespace. Got bad name!"⟩,
         ⟨Severity.error, "alphanumeric characters",
          "name can only contain alphanumeric characters, hyphens, underscores and dots. Got bad name!"⟩] ∧
    ValidateNameOnlyContainsAlphanumericCharacters (GoValue.str "bad!name") =
      Except.ok
        [⟨Severity.error, "alphanumeric characters",
          "name can only contain alphanumeric characters, hyphens, underscores and dots. Got bad!name"⟩] :=
  ⟨(alnum_validator_diags "good-name_1.x").1 (by decide),
   (alnum_validator_diags "bad name!").2.1 (by decide) (by decide),
   (alnum_validator_diags "bad!name").2.2 (by decide) (by decide)⟩

/-- C8: `StringToInt "10G"` yields `10` with nil error; `StringToInt
"abc"` yields `0` with a non-nil error. -/
theorem stringToInt_10G_abc :
    StringToInt "10G" = (10, none) ∧
    ∃ e, StringToInt "abc" = (0, some e) :=
  ⟨by decide, ⟨"strconv.Atoi: parsing abc: invalid syntax", by decide⟩⟩

/-- C10: `StringToInt` deletes exactly the first occurrence of `'G'`
anywhere in the string (strings without a `'G'` are left unchanged)
before parsing, so `"G10"` and `"1G0"` both parse to `10` while
`"10GG"` fails with result `0`. -/
theorem stringToInt_removes_first_G_only :
    (∀ a b : List Char, 'G' ∉ a → removeFirstG (a ++ 'G' :: b) = a ++ b) ∧
    (∀ cs : List Char, 'G' ∉ cs → removeFirstG cs = cs) ∧
    StringToInt "G10" = (10, none) ∧
    StringToInt "1G0" = (10, none) ∧
    StringToInt "10GG" =
      (0, some "strconv.Atoi: parsing 10G: invalid syntax") := by
  refine ⟨?_, ?_, by decide, by decide, by decide⟩
  · intro a b ha
    induction a with
    | nil => simp [removeFirstG]
    | cons c rest ih =>
      simp only [List.mem_cons, not_or] at ha
      simp [removeFirstG, Ne.symm ha.1, ih ha.2]
  · intro cs h
    induction cs with
    | nil => rfl
    | cons c rest ih =>
      simp only [List.mem_cons, not_or] at h
      simp [removeFirstG, Ne.symm h.1, ih h.2]

/-- C10 witness: deleting the first `'G'` of `"1G0"` gives `"10"`. -/
theorem stringToInt_removes_first_G_only_witness :
    removeFirstG (['1'] ++ 'G' :: ['0']) = ['1'] ++ ['0'] :=
  stringToInt_removes_first_G_only.1 ['1'] ['0'] (by decide)

/-! ### Helper lemmas about `splitFirstColon` -/

lemma splitFirstColon_sound (cs : List Char) :
    ∀ a b : List Char, splitFirstColon cs = some (a, b) →
      cs = a ++ ':' :: b ∧ ':' ∉ a := by
  induction cs with
  | nil => intro a b h; simp [splitFirstColon] at h
  | cons c rest ih =>
    intro a b h
    simp only [splitFirstColon] at h
    by_cases hc : c = ':'
    · subst hc
      rw [if_pos rfl] at h
      simp only [Option.some.injEq, Prod.mk.injEq] at h
      obtain ⟨ha, hb⟩ := h
      subst ha; subst hb
      simp
    · rw [if_neg hc] at h
      cases hsp : splitFirstColon rest with
      | none => rw [hsp] at h; simp at h
      | some p =>
        rw [hsp] at h
        obtain ⟨a', b'⟩ := p
        simp only [Option.map_some', Option.some.injEq, Prod.mk.injEq] at h
        obtain ⟨ha, hb⟩ := h
        obtain ⟨h1, h2⟩ := ih a' b' hsp
        subst ha; subst hb
        refine ⟨by simp [h1], ?_⟩
        simp only [List.mem_cons, not_or]
        exact ⟨Ne.symm hc, h2⟩

lemma splitFirstColon_complete (x y : List Char) (hx : ':' ∉ x) :
    splitFirstColon (x ++ ':' :: y) = some (x, y) := by
  induction x with
  | nil => simp [splitFirstColon]
  | cons c rest ih =>
    simp only [List.mem_cons, not_or] at hx
    simp [splitFirstColon, Ne.symm hx.1, ih hx.2]

/-- C9: `ResourceCommonParseID` succeeds exactly on inputs with a
non-empty part before the first colon and a non-empty remainder after
it; on success it returns those two parts, whose concatenation around a
colon reconstructs the input, the first part being colon-free. -/
theorem resourceCommonParseID_spec (id : String) :
    ((∃ p, ResourceCommonParseID id = Except.ok p) ↔
      ∃ x y : List Char, id.data = x ++ ':' :: y ∧ ':' ∉ x ∧
        x ≠ [] ∧ y ≠ []) ∧
    (∀ a b : String, ResourceCommonParseID id = Except.ok (a, b) →
      a.data ++ ':' :: b.data = id.data ∧ ':' ∉ a.data) := by
  constructor
  · constructor
    · rintro ⟨⟨a, b⟩, hp⟩
      cases hsp : splitFirstColon id.data with
      | none => simp [ResourceCommonParseID, hsp] at hp
      | some p =>
        obtain ⟨a0, b0⟩ := p
        simp only [ResourceCommonParseID, hsp] at hp
        by_cases he : (a0.isEmpty || b0.isEmpty) = true
        · rw [if_pos he] at hp; simp at hp
        · rw [if_neg he] at hp
          obtain ⟨h1, h2⟩ := splitFirstColon_sound id.data a0 b0 hsp
          simp only [Bool.or_eq_true, List.isEmpty_iff, not_or] at he
          exact ⟨a0, b0, h1, h2, he.1, he.2⟩
    · rintro ⟨x, y, hxy, hnx, hx, hy⟩
      refine ⟨(⟨x⟩, ⟨y⟩), ?_⟩
      simp only [ResourceCommonParseID, hxy, splitFirstColon_complete x y hnx]
      have he : (x.isEmpty || y.isEmpty) = false := by
        simp [List.isEmpty_iff, hx, hy]
      rw [if_neg (by simp [he])]
  · intro a b hab
    cases hsp : splitFirstColon id.data with
    | none => simp [ResourceCommonParseID, hsp] at hab
    | some p =>
      obtain ⟨a0, b0⟩ := p
      simp only [ResourceCommonParseID, hsp] at hab
      by_cases he : (a0.isEmpty || b0.isEmpty) = true
      · rw [if_pos he] at hab; simp at hab
      · rw [if_neg he] at hab
        simp only [Except.ok.injEq, Prod.mk.injEq] at hab
        obtain ⟨ha, hb⟩ := hab
        obtain ⟨h1, h2⟩ := splitFirstColon_sound id.data a0 b0 hsp
        subst ha; subst hb
        exact ⟨h1.symm, h2⟩

/-- C9 witness: `"ab:c:d"` splits into `"ab"` and `"c:d"`. -/
theorem resourceCommonParseID_spec_witness :
    "ab".data ++ ':' :: "c:d".data = "ab:c:d".data ∧ ':' ∉ "ab".data :=
  (resourceCommonParseID_spec "ab:c:d").2 "ab" "c:d" rfl

/-! ### Helper lemmas about `retryRun` -/

lemma retryRun_success (fn : Nat → Option String) (elapsed : Nat → Nat)
    (interval timeout fuel k : Nat) (hfn : fn k = none) :
    retryRun fn elapsed interval timeout (fuel + 1) k =
      some ([Event.call k none], none) := by
  simp [retryRun, hfn]

lemma retryRun_timeout (fn : Nat → Option String) (elapsed : Nat → Nat)
    (interval timeout fuel k : Nat) (e : String)
    (hfn : fn k = some e) (ht : elapsed k > timeout) :
    retryRun fn elapsed interval timeout (fuel + 1) k =
      some ([Event.call k (some e), Event.deadlineCheck k],
            some "timeout reached") := by
  simp [retryRun, hfn, ht]

lemma retryRun_step (fn : Nat → Option String) (elapsed : Nat → Nat)
    (interval timeout fuel k : Nat) (e : String)
    (hfn : fn k = some e) (ht : ¬ elapsed k > timeout) :
    retryRun fn elapsed interval timeout (fuel + 1) k =
      (retryRun fn elapsed interval timeout fuel (k + 1)).map
        (fun p => (Event.call k (some e) :: Event.deadlineCheck k ::
                   Event.logged e :: Event.slept interval :: p.1, p.2)) := by
  simp only [retryRun, hfn]
  rw [if_neg ht]
  cases retryRun fn elapsed interval timeout fuel (k + 1) with
  | none => rfl
  | some p => cases p; rfl

lemma retryRun_head_call (fn : Nat → Option String) (elapsed : Nat → Nat)
    (interval timeout : Nat) :
    ∀ fuel k tr out,
      retryRun fn elapsed interval timeout fuel k = some (tr, out) →
      (∃ r, tr.head? = some (Event.call k r)) ∧
      checksFollowFailedCalls tr = true := by
  intro fuel
  induction fuel with
  | zero => intro k tr out h; simp [retryRun] at h
  | succ n ih =>
    intro k tr out h
    cases hfn : fn k with
    | none =>
      rw [retryRun_success fn elapsed interval timeout n k hfn] at h
      simp only [Option.some.injEq, Prod.mk.injEq] at h
      obtain ⟨htr, _⟩ := h
      subst htr
      exact ⟨⟨none, rfl⟩, rfl⟩
    | some e =>
      by_cases ht : elapsed k > timeout
      · rw [retryRun_timeout fn elapsed interval timeout n k e hfn ht] at h
        simp only [Option.some.injEq, Prod.mk.injEq] at h
        obtain ⟨htr, _⟩ := h
        subst htr
        refine ⟨⟨some e, rfl⟩, ?_⟩
        simp [checksFollowFailedCalls]
      · rw [retryRun_step fn elapsed interval timeout n k e hfn ht] at h
        cases hrec : retryRun fn elapsed interval timeout n (k + 1) with
        | none => rw [hrec] at h; simp at h
        | some p =>
          obtain ⟨tr', out'⟩ := p
          rw [hrec] at h
          simp only [Option.map_some', Option.some.injEq, Prod.mk.injEq] at h
          obtain ⟨htr, hout⟩ := h
          subst htr
          obtain ⟨_, hchecks⟩ := ih (k + 1) tr' out' hrec
          refine ⟨⟨some e, rfl⟩, ?_⟩
          simp [checksFollowFailedCalls, hchecks]

lemma retryRun_no_success_of_err (fn : Nat → Option String)
    (elapsed : Nat → Nat) (interval timeout : Nat) :
    ∀ fuel k tr out,
      retryRun fn elapsed interval timeout fuel k = some (tr, out) →
      out ≠ none → tr.all (fun ev => !isSuccessCall ev) = true := by
  intro fuel
  induction fuel with
  | zero => intro k tr out h _; simp [retryRun] at h
  | succ n ih =>
    intro k tr out h hout
    cases hfn : fn k with
    | none =>
      rw [retryRun_success fn elapsed interval timeout n k hfn] at h
      simp only [Option.some.injEq, Prod.mk.injEq] at h
      exact absurd h.2.symm hout
    | some e =>
      by_cases ht : elapsed k > timeout
      · rw [retryRun_timeout fn elapsed interval timeout n k e hfn ht] at h
        simp only [Option.some.injEq, Prod.mk.injEq] at h
        obtain ⟨htr, _⟩ := h
        subst htr
        rfl
      · rw [retryRun_step fn elapsed interval timeout n k e hfn ht] at h
        cases hrec : retryRun fn elapsed interval timeout n (k + 1) with
        | none => rw [hrec] at h; simp at h
        | some p =>
          obtain ⟨tr', out'⟩ := p
          rw [hrec] at h
          simp only [Option.map_some', Option.some.injEq, Prod.mk.injEq] at h
          obtain ⟨htr, hout'⟩ := h
          subst htr; subst hout'
          have hall := ih (k + 1) tr' out' hrec hout
          simp only [List.all_cons, hall]
          rfl

lemma retryRun_success_form (fn : Nat → Option String)
    (elapsed : Nat → Nat) (interval timeout : Nat) :
    ∀ fuel k tr out,
      retryRun fn elapsed interval timeout fuel k = some (tr, out) →
      out = none →
      ∃ tr' k', tr = tr' ++ [Event.call k' none] ∧
        tr'.all (fun ev => !isSuccessCall ev) = true := by
  intro fuel
  induction fuel with
  | zero => intro k tr out h _; simp [retryRun] at h
  | succ n ih =>
    intro k tr out h hout
    cases hfn : fn k with
    | none =>
      rw [retryRun_success fn elapsed interval timeout n k hfn] at h
      simp only [Option.some.injEq, Prod.mk.injEq] at h
      obtain ⟨htr, _⟩ := h
      subst htr
      exact ⟨[], k, rfl, rfl⟩
    | some e =>
      by_cases ht : elapsed k > timeout
      · rw [retryRun_timeout fn elapsed interval timeout n k e hfn ht] at h
        simp only [Option.some.injEq, Prod.mk.injEq] at h
        rw [← h.2] at hout
        simp at hout
      · rw [retryRun_step fn elapsed interval timeout n k e hfn ht] at h
        cases hrec : retryRun fn elapsed interval timeout n (k + 1) with
        | none => rw [hrec] at h; simp at h
        | some p =>
          obtain ⟨tr', out'⟩ := p
          rw [hrec] at h
          simp only [Option.map_some', Option.some.injEq, Prod.mk.injEq] at h
          obtain ⟨htr, hout'⟩ := h
          subst htr; subst hout'
          obtain ⟨tr'', k', hform, hall⟩ := ih (k + 1) tr' out' hrec hout
          refine ⟨Event.call k (some e) :: Event.deadlineCheck k ::
                  Event.logged e :: Event.slept interval :: tr'', k', ?_, ?_⟩
          · simp [hform]
          · simp only [List.all_cons, hall]
            rfl

lemma retryRun_err_is_timeout (fn : Nat → Option String)
    (elapsed : Nat → Nat) (interval timeout : Nat) :
    ∀ fuel k tr out,
      retryRun fn elapsed interval timeout fuel k = some (tr, out) →
      out = none ∨ out = some "timeout reached" := by
  intro fuel
  induction fuel with
  | zero => intro k tr out h; simp [retryRun] at h
  | succ n ih =>
    intro k tr out h
    cases hfn : fn k with
    | none =>
      rw [retryRun_success fn elapsed interval timeout n k hfn] at h
      simp only [Option.some.injEq, Prod.mk.injEq] at h
      exact Or.inl h.2.symm
    | some e =>
      by_cases ht : elapsed k > timeout
      · rw [retryRun_timeout fn elapsed interval timeout n k e hfn ht] at h
        simp only [Option.some.injEq, Prod.mk.injEq] at h
        exact Or.inr h.2.symm
      · rw [retryRun_step fn elapsed interval timeout n k e hfn ht] at h
        cases hrec : retryRun fn elapsed interval timeout n (k + 1) with
        | none => rw [hrec] at h; simp at h
        | some p =>
          obtain ⟨tr', out'⟩ := p
          rw [hrec] at h
          simp only [Option.map_some', Option.some.injEq, Prod.mk.injEq] at h
          rw [← h.2]
          exact ih (k + 1) tr' out' hrec

/-! ### Claims about the retry loop -/

/-- C2: in every terminating run of `RetryUntilSuccessOrTimeout` — for
every operation, elapsed-time observation, interval and timeout,
including a zero or already-elapsed timeout — the very first event is
an invocation of `fn`, and every deadline comparison occurs immediately
after a failed invocation, never before one. -/
theorem retry_calls_before_deadline_check (fn : Nat → Option String)
    (elapsed : Nat → Nat) (interval timeout fuel : Nat)
    (tr : List Event) (out : Option String)
    (h : RetryUntilSuccessOrTimeout fn elapsed interval timeout fuel =
      some (tr, out)) :
    (∃ r, tr.head? = some (Event.call 0 r)) ∧
    checksFollowFailedCalls tr = true :=
  retryRun_head_call fn elapsed interval timeout fuel 0 tr out h

/-- C2 witness: an operation failing with `"boom"`, timeout `0`, and
`100` time units already elapsed at the first check: the run still
begins with the invocation, and the single deadline check follows it. -/
theorem retry_calls_before_deadline_check_witness :
    (∃ r, ([Event.call 0 (some "boom"), Event.deadlineCheck 0] :
      List Event).head? = some (Event.call 0 r)) ∧
    checksFollowFailedCalls
      [Event.call 0 (some "boom"), Event.deadlineCheck 0] = true :=
  retry_calls_before_deadline_check (fun _ => some "boom") (fun _ => 100)
    5 0 1 [Event.call 0 (some "boom"), Event.deadlineCheck 0]
    (some "timeout reached") rfl

/-- C3: a terminating run of `RetryUntilSuccessOrTimeout` returns the
nil error exactly when some invocation of `fn` succeeded, and in that
case the successful invocation is the final event of the run — no
earlier invocation succeeded and nothing (no call, no sleep) happens
after it. -/
theorem retry_success_iff (fn : Nat → Option String)
    (elapsed : Nat → Nat) (interval timeout fuel : Nat)
    (tr : List Event) (out : Option String)
    (h : RetryUntilSuccessOrTimeout fn elapsed interval timeout fuel =
      some (tr, out)) :
    out = none ↔ ∃ tr' k', tr = tr' ++ [Event.call k' none] ∧
      tr'.all (fun ev => !isSuccessCall ev) = true := by
  constructor
  · exact retryRun_success_form fn elapsed interval timeout fuel 0 tr out h
  · rintro ⟨tr', k', htr, _⟩
    by_contra hout
    have hall :=
      retryRun_no_success_of_err fn elapsed interval timeout fuel 0 tr out
        h hout
    rw [htr] at hall
    simp [List.all_append, isSuccessCall] at hall

/-- C3 witness: an operation failing once then succeeding: the run ends
at the successful second invocation with the nil error. -/
theorem retry_success_iff_witness :
    (none : Option String) = none ↔
    ∃ tr' k',
      ([Event.call 0 (some "boom"), Event.deadlineCheck 0,
        Event.logged "boom", Event.slept 5, Event.call 1 none] :
        List Event) = tr' ++ [Event.call k' none] ∧
      tr'.all (fun ev => !isSuccessCall ev) = true :=
  retry_success_iff (fun k => if k = 0 then some "boom" else none)
    (fun _ => 0) 5 10 2
    [Event.call 0 (some "boom"), Event.deadlineCheck 0,
     Event.logged "boom", Event.slept 5, Event.call 1 none]
    none rfl

/-- C4: whenever a terminating run of `RetryUntilSuccessOrTimeout`
returns a non-nil error, that error is the generic `"timeout reached"`
error — the underlying operation errors are never propagated. -/
theorem retry_timeout_only_error (fn : Nat → Option String)
    (elapsed : Nat → Nat) (interval timeout fuel : Nat)
    (tr : List Event) (out : Option String)
    (h : RetryUntilSuccessOrTimeout fn elapsed interval timeout fuel =
      some (tr, out)) :
    out = none ∨ out = some "timeout reached" :=
  retryRun_err_is_timeout fn elapsed interval timeout fuel 0 tr out h

/-- C4 witness: an operation always failing with `"boom"` under a
zero timeout: the returned error is `"timeout reached"`, not
`"boom"`. -/
theorem retry_timeout_only_error_witness :
    (some "timeout reached" : Option String) = none ∨
    (some "timeout reached" : Option String) = some "timeout reached" :=
  retry_timeout_only_error (fun _ => some "boom") (fun _ => 100) 5 0 1
    [Event.call 0 (some "boom"), Event.deadlineCheck 0]
    (some "timeout reached") rfl

end Civo
